import Mathlib

/-!
Shallow embedding of the Django backend views (`recommendations/views.py`,
`reports/views.py`, `comparisons/views.py`, `products/views.py`).

Modelling conventions:
* Machine state (`St`) carries the relational tables, the cache, the current
  time (seconds), and auto-increment counters for primary keys.
* The opaque external AI services (`RecommendationService`,
  `ReportGenerationService`, `ComparisonService`) are passed in as explicit
  arguments: a list of recommendation items, an `Except` value for the
  fallible report service, a criteria/analysis pair for comparisons.
* DRF serializer validation is opaque (the serializer modules are not part of
  this slice), so each endpoint takes an `Except FieldErrors <request>` input:
  `.error` is a request that failed validation, `.ok` a validated one.
* The Django cache is a key-value store with absolute expiry timestamps,
  modelled as a function `String → Option (RecResponse × Nat)`.
-/

/-- One scored item returned by the recommendation service
(`{product_id, score, algorithm}`). Scores are opaque payload here. -/
structure RecItem where
  product_id : Nat
  score : Int
  algorithm : String
deriving DecidableEq, Repr

/-- A `RecommendationSession` row. -/
structure RecSession where
  id : Nat
  user : Option Nat
  session_id : Option String
  recommendation_type : String
deriving DecidableEq, Repr

/-- A `RecommendationResult` row. -/
structure RecResult where
  session : Nat
  product_id : Nat
  score : Int
  pos : Nat
  algorithm_used : String
  was_clicked : Bool := false
  was_added_to_cart : Bool := false
  was_purchased : Bool := false
  click_timestamp : Option Nat := none
deriving DecidableEq, Repr

/-- The response body composed by the recommendation endpoints. -/
structure RecResponse where
  session_id : Nat
  recommendations : List RecItem
  total_count : Nat
  algo_type : String
  algo_description : String
deriving DecidableEq, Repr

/-- A `Product` row (the fields this slice reads). -/
structure Product where
  id : Nat
  slug : String
  is_active : Bool
deriving DecidableEq, Repr

/-- A `ProductLike` row. -/
structure ProductLike where
  user : Nat
  product : Nat
deriving DecidableEq, Repr

/-- A `UserBehaviorLog` row. -/
structure BehaviorLog where
  user : Nat
  product : Nat
  action_type : String
deriving DecidableEq, Repr

/-- A `GeneratedReport` row. -/
structure GeneratedReport where
  id : Nat
  report_type : String
  generated_by : Nat
  store_id : Option Nat
  date_from : Nat
  date_to : Nat
  parameters : String
  status : String
  raw_data : Option String := none
  ai_summary_text : Option String := none
  visualizations : Option String := none
  generated_at : Nat
  completed_at : Option Nat := none
  download_count : Nat := 0
  last_accessed : Option Nat := none
deriving DecidableEq, Repr

/-- A `ReportSchedule` row (the fields the creation path writes). -/
structure ReportSchedule where
  user : Nat
  frequency : String
  next_run : Nat
deriving DecidableEq, Repr

/-- A `ProductComparison` row together with its `products` many-to-many set. -/
structure ProductComparison where
  id : Nat
  user : Option Nat
  comparison_criteria : String
  ai_analysis : String
  product_ids : List Nat
deriving DecidableEq, Repr

/-- The Django cache: key to (value, absolute expiry time). -/
abbrev RecCache : Type := String → Option (RecResponse × Nat)

/-- Field errors produced by serializer validation. -/
abbrev FieldErrors : Type := List (String × String)

/-- The world state: all tables, the cache, the clock, and id counters. -/
structure St where
  time : Nat
  products : List Product
  likes : List ProductLike
  behaviorLogs : List BehaviorLog
  recSessions : List RecSession
  recResults : List RecResult
  recCache : RecCache
  nextSessionId : Nat
  reports : List GeneratedReport
  nextReportId : Nat
  schedules : List ReportSchedule
  comparisons : List ProductComparison
  nextComparisonId : Nat

/-- `cache.get(key)`: a stored value is returned while `now < expiry`. -/
def cacheGet (c : RecCache) (now : Nat) (key : String) : Option RecResponse :=
  match c key with
  | some (v, expiry) => if now < expiry then some v else none
  | none => none

/-- `cache.set(key, value, timeout)`: store with expiry `now + timeout`. -/
def cacheSet (c : RecCache) (now : Nat) (key : String) (v : RecResponse)
    (timeout : Nat) : RecCache :=
  fun k => if k = key then some (v, now + timeout) else c k

/-- The cache key of `general_recommendations` (`views.py` line 36). -/
def generalCacheKey (limit : Nat) : String :=
  s!"general_recommendations_{limit}"

/-- The cache key of `personalized_recommendations` (`views.py` line 102). -/
def personalizedCacheKey (userId limit : Nat) : String :=
  s!"personalized_recommendations_{userId}_{limit}"

/-- A validated recommendation request (`RecommendationRequestSerializer`
output, with `limit` already defaulted to 10). -/
structure RecRequest where
  limit : Nat := 10
  category_id : Option Nat := none
  exclude_products : List Nat := []
  session_id : Option String := none
deriving DecidableEq, Repr

/-- Outcome of a recommendation endpoint. -/
inductive RecOutcome where
  | ok (resp : RecResponse)
  | validationError (errors : FieldErrors)
deriving DecidableEq, Repr

/-- HTTP status of a recommendation outcome. -/
def RecOutcome.httpStatus : RecOutcome → Nat
  | .ok _ => 200
  | .validationError _ => 400

/-- The `RecommendationResult` rows written for one session: one row per
returned item, `position = idx + 1` in returned order. -/
def mkRecResults (sid : Nat) (recs : List RecItem) : List RecResult :=
  recs.enum.map fun p =>
    { session := sid, product_id := p.2.product_id, score := p.2.score,
      pos := p.1 + 1, algorithm_used := p.2.algorithm }

/-- `general_recommendations` (`recommendations/views.py` lines 25-87).
`svc` is the list returned by
`RecommendationService.get_general_recommendations`. -/
def general_recommendations (st : St) (user : Option Nat)
    (input : Except FieldErrors RecRequest) (svc : List RecItem) :
    St × RecOutcome :=
  match input with
  | .error errs => (st, .validationError errs)
  | .ok req =>
    let key := generalCacheKey req.limit
    match cacheGet st.recCache st.time key with
    | some cached => (st, .ok cached)
    | none =>
      let sid := st.nextSessionId
      let session : RecSession :=
        { id := sid, user := user, session_id := req.session_id,
          recommendation_type := "general" }
      let newResults := mkRecResults sid svc
      let resp : RecResponse :=
        { session_id := sid, recommendations := svc,
          total_count := svc.length, algo_type := "general",
          algo_description := "Trending and popular products" }
      ({ st with
          recSessions := st.recSessions ++ [session],
          recResults := st.recResults ++ newResults,
          recCache := cacheSet st.recCache st.time key resp 900,
          nextSessionId := sid + 1 }, .ok resp)

/-- `personalized_recommendations` (`recommendations/views.py` lines 92-154).
The user is authenticated (`IsAuthenticated`), so `userId : Nat`. -/
def personalized_recommendations (st : St) (userId : Nat)
    (input : Except FieldErrors RecRequest) (svc : List RecItem) :
    St × RecOutcome :=
  match input with
  | .error errs => (st, .validationError errs)
  | .ok req =>
    let key := personalizedCacheKey userId req.limit
    match cacheGet st.recCache st.time key with
    | some cached => (st, .ok cached)
    | none =>
      let sid := st.nextSessionId
      let session : RecSession :=
        { id := sid, user := some userId, session_id := req.session_id,
          recommendation_type := "personalized" }
      let newResults := mkRecResults sid svc
      let resp : RecResponse :=
        { session_id := sid, recommendations := svc,
          total_count := svc.length, algo_type := "personalized",
          algo_description := "Based on your preferences and behavior" }
      ({ st with
          recSessions := st.recSessions ++ [session],
          recResults := st.recResults ++ newResults,
          recCache := cacheSet st.recCache st.time key resp 300,
          nextSessionId := sid + 1 }, .ok resp)

/-- A validated feedback request (`RecommendationFeedbackSerializer` output). -/
structure FeedbackReq where
  session_id : Nat
  product_id : Nat
  action : String
  timestamp : Option Nat := none
deriving DecidableEq, Repr

/-- Outcome of `track_recommendation_interaction`. -/
inductive TrackOutcome where
  | success
  | notFound
  | validationError (errors : FieldErrors)
  | serverError
deriving DecidableEq, Repr

/-- HTTP status of a tracking outcome. -/
def TrackOutcome.httpStatus : TrackOutcome → Nat
  | .success => 200
  | .notFound => 404
  | .validationError _ => 400
  | .serverError => 500

/-- Does a result row match the (session id, product id) pair of a feedback
request? (the `RecommendationResult.objects.get` filter). -/
def fbMatches (fb : FeedbackReq) (r : RecResult) : Bool :=
  r.session == fb.session_id && r.product_id == fb.product_id

/-- The field update performed for one action value
(`views.py` lines 184-190): `click` sets `was_clicked` and the timestamp,
`add_to_cart` and `purchase` set their flags, anything else changes
nothing (the row is still saved). -/
def applyAction (action : String) (ts : Nat) (r : RecResult) : RecResult :=
  if action = "click" then
    { r with was_clicked := true, click_timestamp := some ts }
  else if action = "add_to_cart" then
    { r with was_added_to_cart := true }
  else if action = "purchase" then
    { r with was_purchased := true }
  else r

/-- `track_recommendation_interaction` (`recommendations/views.py` lines
159-205). `.get()` with no match raises `DoesNotExist` (handled as 404);
with several matches it raises `MultipleObjectsReturned`, which falls into
the catch-all 500 handler. -/
def track_recommendation_interaction (st : St)
    (input : Except FieldErrors FeedbackReq) : St × TrackOutcome :=
  match input with
  | .error errs => (st, .validationError errs)
  | .ok fb =>
    match st.recResults.filter (fbMatches fb) with
    | [] => (st, .notFound)
    | [_] =>
      let ts := fb.timestamp.getD st.time
      ({ st with recResults := st.recResults.map fun r =>
          if fbMatches fb r then applyAction fb.action ts r else r },
       .success)
    | _ => (st, .serverError)

/-- A validated report-generation request
(`ReportGenerationRequestSerializer` output). -/
structure ReportReq where
  report_type : String
  store_id : Option Nat := none
  date_from : Nat
  date_to : Nat
  parameters : String := ""
deriving DecidableEq, Repr

/-- The payload returned by `ReportGenerationService.generate_report`
(collaborator contract: `{raw_data, ai_summary, visualizations}`,
`visualizations` optional with default `{}`). -/
structure ReportPayload where
  raw_data : String
  ai_summary : String
  visualizations : Option String := none
deriving DecidableEq, Repr

/-- Outcome of `GenerateReportView.create`. -/
inductive ReportOutcome where
  | created (report : GeneratedReport)
  | generationFailed
  | serverError
deriving DecidableEq, Repr

/-- HTTP status of a report-generation outcome: 201 on success, 500 both for
a failed service call (`'Report generation failed'`) and for the outer
catch-all (`'Failed to generate report'`), which also swallows the
validation exception raised by `is_valid(raise_exception=True)`. -/
def ReportOutcome.httpStatus : ReportOutcome → Nat
  | .created _ => 201
  | .generationFailed => 500
  | .serverError => 500

/-- The `GeneratedReport` row as first created, with `status='pending'`
(`reports/views.py` lines 40-48). -/
def mkPendingReport (st : St) (user : Nat) (req : ReportReq) :
    GeneratedReport :=
  { id := st.nextReportId, report_type := req.report_type,
    generated_by := user, store_id := req.store_id,
    date_from := req.date_from, date_to := req.date_to,
    parameters := req.parameters, status := "pending",
    generated_at := st.time }

/-- `report.save()` after mutating the instance: update the row with this
primary key. -/
def updateReport (rows : List GeneratedReport) (rid : Nat)
    (f : GeneratedReport → GeneratedReport) : List GeneratedReport :=
  rows.map fun r => if r.id = rid then f r else r

/-- `GenerateReportView.create` (`reports/views.py` lines 34-88). A failed
validation raises inside the outer `try`, so no row is created and the
generic 500 body is returned. Otherwise a `pending` row is created; the
service call either succeeds (row completed, payload attached) or raises
(row failed, no payload). -/
def generateReportCreate (st : St) (user : Nat)
    (input : Except FieldErrors ReportReq)
    (svc : Except Unit ReportPayload) : St × ReportOutcome :=
  match input with
  | .error _ => (st, .serverError)
  | .ok req =>
    let rid := st.nextReportId
    let st1 := { st with
      reports := st.reports ++ [mkPendingReport st user req],
      nextReportId := rid + 1 }
    match svc with
    | .error _ =>
      ({ st1 with reports := updateReport st1.reports rid fun r =>
          { r with status := "failed" } },
       .generationFailed)
    | .ok d =>
      let finish := fun (r : GeneratedReport) =>
        { r with
            raw_data := some d.raw_data,
            ai_summary_text := some d.ai_summary,
            visualizations := some (d.visualizations.getD "{}"),
            status := "completed",
            completed_at := some st.time }
      ({ st1 with reports := updateReport st1.reports rid finish },
       .created (finish (mkPendingReport st user req)))

/-- Outcome of `download_report`: a file attachment, or an error body. The
`Http404` raised by `get_object_or_404` is caught by the view's own
`except Exception`, so every error surfaces as the 500 body
`'Failed to download report'`. -/
inductive DownloadOutcome where
  | file (content : String) (filename : String)
  | error (msg : String)
deriving DecidableEq, Repr

/-- HTTP status of a download outcome. -/
def DownloadOutcome.httpStatus : DownloadOutcome → Nat
  | .file _ _ => 200
  | .error _ => 500

/-- `str(report.raw_data)` for the JSON branch (Python renders a missing
payload as `"None"`). -/
def rawDataStr (r : GeneratedReport) : String :=
  match r.raw_data with
  | some s => s
  | none => "None"

/-- The CSV summary cell: first 100 characters plus `"..."` when longer
(`reports/views.py` line 164). -/
def csvSummaryCell (s : String) : String :=
  if s.length > 100 then (s.take 100) ++ "..." else s

/-- The `get_object_or_404` filter of `download_report`: primary key, owner
and `status='completed'`. -/
def downloadPred (reportId userId : Nat) (r : GeneratedReport) : Bool :=
  r.id == reportId && r.generated_by == userId && r.status == "completed"

/-- The download side effect saved before the file is built: increment
`download_count`, refresh `last_accessed`. -/
def incDownload (now : Nat) (x : GeneratedReport) : GeneratedReport :=
  { x with download_count := x.download_count + 1,
           last_accessed := some now }

/-- `download_report` (`reports/views.py` lines 127-180). The lookup filters
on id, owner and `status='completed'`; the counter and timestamp are saved
before the file content is built; building the CSV row reads
`len(report.ai_summary_text)`, which raises when the summary is unset. -/
def download_report (st : St) (reportId userId : Nat) (fmt : String) :
    St × DownloadOutcome :=
  match st.reports.find? (downloadPred reportId userId) with
  | none => (st, .error "Failed to download report")
  | some r =>
    let st' := { st with
      reports := updateReport st.reports r.id (incDownload st.time) }
    if fmt = "json" then
      (st', .file (rawDataStr r) s!"report_{r.id}.json")
    else
      match r.ai_summary_text with
      | none => (st', .error "Failed to download report")
      | some summary =>
        (st', .file
          (s!"Report Type,Generated Date,Summary\n{r.report_type},{r.generated_at},{csvSummaryCell summary}")
          s!"report_{r.id}.csv")

/-- `ReportScheduleView.perform_create`'s next-run computation
(`reports/views.py` lines 223-237), over times in seconds:
`timedelta(days=1)` for daily, `timedelta(weeks=1)` for weekly, 30 days for
monthly, 90 for quarterly, one day for anything else. -/
def computeNextRun (now : Nat) (frequency : String) : Nat :=
  if frequency = "daily" then now + 86400
  else if frequency = "weekly" then now + 7 * 86400
  else if frequency = "monthly" then now + 30 * 86400
  else if frequency = "quarterly" then now + 90 * 86400
  else now + 86400

/-- `ReportScheduleView.perform_create` (`reports/views.py` lines 223-239):
save the schedule with the requesting user and the computed next run. -/
def scheduleCreate (st : St) (user : Nat) (frequency : String) : St :=
  { st with schedules := st.schedules ++
      [{ user := user, frequency := frequency,
         next_run := computeNextRun st.time frequency }] }

/-- A validated product-comparison request
(`ProductComparisonRequestSerializer` output). -/
structure CompareReq where
  product_ids : List Nat
  criteria : List String := []
  include_ai_recommendation : Bool := true
deriving DecidableEq, Repr

/-- Outcome of `compare_products`. -/
inductive CompareOutcome where
  | created (comparison : ProductComparison)
  | notFound
  | validationError (errors : FieldErrors)
deriving DecidableEq, Repr

/-- HTTP status of a comparison outcome. -/
def CompareOutcome.httpStatus : CompareOutcome → Nat
  | .created _ => 201
  | .notFound => 404
  | .validationError _ => 400

/-- `Product.objects.filter(id__in=product_ids, is_active=True)`: the table
rows whose id occurs in the submitted list and which are active. -/
def activeMatches (table : List Product) (ids : List Nat) : List Product :=
  table.filter fun p => decide (p.id ∈ ids) && p.is_active

/-- `compare_products` (`comparisons/views.py` lines 26-73). The queryset
row count is compared against `len(product_ids)` (with multiplicity); on
success one comparison row is created and its `products` set to the
queryset. `svc` is the `{criteria, analysis}` pair from
`ComparisonService.compare_products`. -/
def compare_products (st : St) (user : Option Nat)
    (input : Except FieldErrors CompareReq) (svc : String × String) :
    St × CompareOutcome :=
  match input with
  | .error errs => (st, .validationError errs)
  | .ok req =>
    let products := activeMatches st.products req.product_ids
    if products.length ≠ req.product_ids.length then
      (st, .notFound)
    else
      let comparison : ProductComparison :=
        { id := st.nextComparisonId, user := user,
          comparison_criteria := svc.1, ai_analysis := svc.2,
          product_ids := products.map Product.id }
      ({ st with
          comparisons := st.comparisons ++ [comparison],
          nextComparisonId := st.nextComparisonId + 1 },
       .created comparison)

/-- Outcome of `toggle_product_like`. The `Http404` from
`get_object_or_404` is caught by the view's catch-all, surfacing as 500. -/
inductive LikeOutcome where
  | liked
  | unliked
  | error
deriving DecidableEq, Repr

/-- HTTP status of a like-toggle outcome. -/
def LikeOutcome.httpStatus : LikeOutcome → Nat
  | .liked => 200
  | .unliked => 200
  | .error => 500

/-- `toggle_product_like` (`products/views.py` lines 164-201):
`get_or_create` on (user, product); if the row already existed it is
deleted and `liked=False` returned, otherwise the fresh row is kept and
`liked=True` returned; either way a `UserBehaviorLog` row is appended. -/
def toggle_product_like (st : St) (userId : Nat) (slug : String) :
    St × LikeOutcome :=
  match st.products.find? (fun p => p.slug == slug && p.is_active) with
  | none => (st, .error)
  | some product =>
    match st.likes.find? (fun l =>
        l.user == userId && l.product == product.id) with
    | some existing =>
      ({ st with
          likes := st.likes.erase existing,
          behaviorLogs := st.behaviorLogs ++
            [{ user := userId, product := product.id,
               action_type := "dislike" }] },
       .unliked)
    | none =>
      ({ st with
          likes := st.likes ++ [{ user := userId, product := product.id }],
          behaviorLogs := st.behaviorLogs ++
            [{ user := userId, product := product.id,
               action_type := "like" }] },
       .liked)

/-- An empty world at time 0, used to instantiate theorems concretely. -/
def st0 : St :=
  { time := 0, products := [], likes := [], behaviorLogs := [],
    recSessions := [], recResults := [], recCache := fun _ => none,
    nextSessionId := 0, reports := [], nextReportId := 0, schedules := [],
    comparisons := [], nextComparisonId := 0 }

/-- The spec's frequency-interval table, in days:
{daily: 1, weekly: 7, monthly: 30, quarterly: 90, unknown: 1}. Stated from
the spec's words, to be compared against `computeNextRun`. -/
def specFrequencyIntervalDays (frequency : String) : Nat :=
  if frequency = "daily" then 1
  else if frequency = "weekly" then 7
  else if frequency = "monthly" then 30
  else if frequency = "quarterly" then 90
  else 1

/-- C6: for every schedule-creation request, the appended schedule's
`next_run` minus the creation time is exactly 1 day for `daily`, 7 for
`weekly`, 30 for `monthly`, 90 for `quarterly`, and 1 day (the fallback)
for any other frequency value, with one day = 86400 seconds. -/
theorem schedule_next_run_interval (st : St) (user : Nat)
    (frequency : String) :
    (scheduleCreate st user frequency).schedules =
      st.schedules ++
        [{ user := user, frequency := frequency,
           next_run := st.time + specFrequencyIntervalDays frequency * 86400 }] := by
  have h : computeNextRun st.time frequency =
      st.time + specFrequencyIntervalDays frequency * 86400 := by
    unfold computeNextRun specFrequencyIntervalDays
    split_ifs <;> ring
  simp [scheduleCreate, h]

/-- C9 (amended): the endpoints that validate with an explicit `is_valid`
check — general and personalized recommendations, feedback tracking,
product comparison — return HTTP 400 carrying the serializer field errors
on an invalid body, and the validation short-circuit leaves the state
untouched; `GenerateReportView.create`, which validates with
`raise_exception=True` inside its own catch-all, instead returns the
generic 500 body on a validation failure, creating no report row. -/
theorem validation_error_dispatch :
    (∀ (st : St) (user : Option Nat) (errs : FieldErrors)
        (svc : List RecItem),
      general_recommendations st user (.error errs) svc =
        (st, .validationError errs)) ∧
    (∀ (st : St) (userId : Nat) (errs : FieldErrors) (svc : List RecItem),
      personalized_recommendations st userId (.error errs) svc =
        (st, .validationError errs)) ∧
    (∀ (st : St) (errs : FieldErrors),
      track_recommendation_interaction st (.error errs) =
        (st, .validationError errs)) ∧
    (∀ (st : St) (user : Option Nat) (errs : FieldErrors)
        (svc : String × String),
      compare_products st user (.error errs) svc =
        (st, .validationError errs)) ∧
    (∀ errs : FieldErrors, (RecOutcome.validationError errs).httpStatus = 400) ∧
    (∀ errs : FieldErrors, (TrackOutcome.validationError errs).httpStatus = 400) ∧
    (∀ errs : FieldErrors, (CompareOutcome.validationError errs).httpStatus = 400) ∧
    (∀ (st : St) (user : Nat) (errs : FieldErrors)
        (svc : Except Unit ReportPayload),
      generateReportCreate st user (.error errs) svc = (st, .serverError)) ∧
    ReportOutcome.serverError.httpStatus = 500 :=
  ⟨fun _ _ _ _ => rfl, fun _ _ _ _ => rfl, fun _ _ => rfl, fun _ _ _ _ => rfl,
   fun _ => rfl, fun _ => rfl, fun _ => rfl, fun _ _ _ _ => rfl, rfl⟩

/-- C9 counterexample: a report-generation request whose body fails
validation is answered with the generic 500 error body, not an HTTP 400
carrying the field errors, because `is_valid(raise_exception=True)` raises
inside the view's own `except Exception` handler. -/
theorem report_validation_yields_500 :
    generateReportCreate st0 1
        (Except.error [("report_type", "This field is required.")])
        (Except.ok { raw_data := "rows", ai_summary := "summary" }) =
      (st0, .serverError) ∧
    ReportOutcome.serverError.httpStatus = 500 ∧
    ReportOutcome.serverError.httpStatus ≠ 400 :=
  ⟨rfl, rfl, by decide⟩

/-- C5: a feedback-tracking call whose (session id, product id) pair matches
no `RecommendationResult` row returns 404 and mutates nothing. -/
theorem track_unmatched_pair_404 (st : St) (fb : FeedbackReq)
    (h : ∀ r ∈ st.recResults, ¬ fbMatches fb r) :
    track_recommendation_interaction st (.ok fb) = (st, .notFound) ∧
    TrackOutcome.notFound.httpStatus = 404 := by
  have hf : st.recResults.filter (fbMatches fb) = [] :=
    List.filter_eq_nil_iff.mpr h
  refine ⟨?_, rfl⟩
  simp only [track_recommendation_interaction, hf]

/-- Witness for C5: on a store holding one unrelated result row, tracking
session 5 / product 7 is a 404 no-op. -/
theorem track_unmatched_pair_404_witness :
    (∀ r ∈ ({ st0 with recResults :=
        [{ session := 1, product_id := 2, score := 3, pos := 1,
           algorithm_used := "trending" }] } : St).recResults,
      ¬ fbMatches { session_id := 5, product_id := 7, action := "click" } r) ∧
    track_recommendation_interaction
        { st0 with recResults :=
          [{ session := 1, product_id := 2, score := 3, pos := 1,
             algorithm_used := "trending" }] }
        (.ok { session_id := 5, product_id := 7, action := "click" }) =
      ({ st0 with recResults :=
          [{ session := 1, product_id := 2, score := 3, pos := 1,
             algorithm_used := "trending" }] }, .notFound) :=
  ⟨by decide, (track_unmatched_pair_404 _ _ (by decide)).1⟩

/-- Every element of the unique-match filter result is that match. -/
lemma mem_of_filter_singleton {st : St} {fb : FeedbackReq} {r : RecResult}
    (hf : st.recResults.filter (fbMatches fb) = [r]) :
    ∀ x ∈ st.recResults, fbMatches fb x = true → x = r := by
  intro x hx hm
  have hmem : x ∈ st.recResults.filter (fbMatches fb) :=
    List.mem_filter.mpr ⟨hx, hm⟩
  rw [hf] at hmem
  simpa using hmem

/-- C4: when the (session id, product id) pair of a validated feedback call
matches exactly one `RecommendationResult` row, the call succeeds; action
`click` sets `was_clicked` and `click_timestamp`, `add_to_cart` sets
`was_added_to_cart`, `purchase` sets `was_purchased`, and any other action
value changes nothing at all while still returning success. -/
theorem track_action_effects (st : St) (fb : FeedbackReq) (r : RecResult)
    (hf : st.recResults.filter (fbMatches fb) = [r])
    (st' : St) (out : TrackOutcome)
    (hcall : track_recommendation_interaction st (.ok fb) = (st', out)) :
    out = .success ∧
    (fb.action = "click" →
      st'.recResults = st.recResults.map fun x => if fbMatches fb x then
        { r with was_clicked := true,
                 click_timestamp := some (fb.timestamp.getD st.time) }
        else x) ∧
    (fb.action = "add_to_cart" →
      st'.recResults = st.recResults.map fun x => if fbMatches fb x then
        { r with was_added_to_cart := true } else x) ∧
    (fb.action = "purchase" →
      st'.recResults = st.recResults.map fun x => if fbMatches fb x then
        { r with was_purchased := true } else x) ∧
    (fb.action ≠ "click" → fb.action ≠ "add_to_cart" →
      fb.action ≠ "purchase" → st' = st) := by
  simp only [track_recommendation_interaction, hf] at hcall
  rw [Prod.mk.injEq] at hcall
  obtain ⟨hst, hout⟩ := hcall
  subst hst
  subst hout
  have hone := mem_of_filter_singleton hf
  have hclick : ∀ ts x, applyAction "click" ts x =
      { x with was_clicked := true, click_timestamp := some ts } := by
    intro ts x
    simp [applyAction]
  have hcart : ∀ ts x, applyAction "add_to_cart" ts x =
      { x with was_added_to_cart := true } := by
    intro ts x
    simp [applyAction]
  have hbuy : ∀ ts x, applyAction "purchase" ts x =
      { x with was_purchased := true } := by
    intro ts x
    simp [applyAction]
  refine ⟨rfl, ?_, ?_, ?_, ?_⟩
  · intro ha
    apply List.map_congr_left
    intro x hx
    by_cases hm : fbMatches fb x
    · obtain rfl := hone x hx hm
      rw [if_pos hm, if_pos hm, ha, hclick]
    · rw [if_neg hm, if_neg hm]
  · intro ha
    apply List.map_congr_left
    intro x hx
    by_cases hm : fbMatches fb x
    · obtain rfl := hone x hx hm
      rw [if_pos hm, if_pos hm, ha, hcart]
    · rw [if_neg hm, if_neg hm]
  · intro ha
    apply List.map_congr_left
    intro x hx
    by_cases hm : fbMatches fb x
    · obtain rfl := hone x hx hm
      rw [if_pos hm, if_pos hm, ha, hbuy]
    · rw [if_neg hm, if_neg hm]
  · intro h1 h2 h3
    have hid : ∀ x : RecResult,
        applyAction fb.action (fb.timestamp.getD st.time) x = x := by
      intro x
      unfold applyAction
      rw [if_neg h1, if_neg h2, if_neg h3]
    have hmap : (st.recResults.map fun x => if fbMatches fb x then
        applyAction fb.action (fb.timestamp.getD st.time) x else x) =
        st.recResults := by
      have hpt : ∀ x ∈ st.recResults, (if fbMatches fb x then
          applyAction fb.action (fb.timestamp.getD st.time) x else x) = x := by
        intro x _
        rw [hid x, ite_self]
      calc st.recResults.map (fun x => if fbMatches fb x then
            applyAction fb.action (fb.timestamp.getD st.time) x else x)
          = st.recResults.map id := List.map_congr_left hpt
        _ = st.recResults := List.map_id _
    rw [hmap]

/-- The matched row of the C4 witness. -/
def rW4 : RecResult :=
  { session := 1, product_id := 2, score := 3, pos := 1,
    algorithm_used := "trending" }

/-- The store of the C4 witness: exactly one result row. -/
def stW4 : St := { st0 with recResults := [rW4] }

/-- The feedback call of the C4 witness: a `click` with a timestamp. -/
def fbW4 : FeedbackReq :=
  { session_id := 1, product_id := 2, action := "click",
    timestamp := some 42 }

/-- Witness for C4: a click on the unique matching row succeeds and sets its
flag and timestamp. -/
theorem track_action_effects_witness :
    stW4.recResults.filter (fbMatches fbW4) = [rW4] ∧
    (track_recommendation_interaction stW4 (.ok fbW4)).2 = .success ∧
    (track_recommendation_interaction stW4 (.ok fbW4)).1.recResults =
      stW4.recResults.map fun x => if fbMatches fbW4 x then
        { rW4 with was_clicked := true,
                   click_timestamp := some (fbW4.timestamp.getD stW4.time) }
        else x := by
  have h := track_action_effects stW4 fbW4 rW4 (by decide) _ _ rfl
  exact ⟨by decide, h.1, h.2.1 rfl⟩

/-- `report.save()` on a freshly appended row touches only that row. -/
lemma updateReport_append_fresh (l : List GeneratedReport)
    (p : GeneratedReport) (rid : Nat) (f : GeneratedReport → GeneratedReport)
    (h : ∀ r ∈ l, r.id ≠ rid) (hp : p.id = rid) :
    updateReport (l ++ [p]) rid f = l ++ [f p] := by
  unfold updateReport
  rw [List.map_append]
  congr 1
  · calc l.map (fun r => if r.id = rid then f r else r)
        = l.map id := List.map_congr_left (fun r hr => if_neg (h r hr))
      _ = l := List.map_id _
  · simp [hp]

/-- C2: every validated report-generation request appends exactly one
`GeneratedReport` row, created as `pending`; if the report service raises,
that row ends with status `failed` and `raw_data` unset; if the service
succeeds, it ends with status `completed`, `completed_at` set, and
`raw_data`/`ai_summary_text` populated from the service result. -/
theorem report_generation_lifecycle (st : St) (user : Nat) (req : ReportReq)
    (svc : Except Unit ReportPayload) (st' : St) (out : ReportOutcome)
    (hfresh : ∀ r ∈ st.reports, r.id < st.nextReportId)
    (hcall : generateReportCreate st user (.ok req) svc = (st', out)) :
    (mkPendingReport st user req).status = "pending" ∧
    (∀ e, svc = .error e →
      st'.reports = st.reports ++
        [{ mkPendingReport st user req with status := "failed" }] ∧
      ({ mkPendingReport st user req with status := "failed" }).raw_data
        = none ∧
      out = .generationFailed) ∧
    (∀ d, svc = .ok d →
      ∃ cr, st'.reports = st.reports ++ [cr] ∧ out = .created cr ∧
        cr.status = "completed" ∧ cr.completed_at = some st.time ∧
        cr.raw_data = some d.raw_data ∧
        cr.ai_summary_text = some d.ai_summary) := by
  have hne : ∀ r ∈ st.reports, r.id ≠ st.nextReportId :=
    fun r hr => Nat.ne_of_lt (hfresh r hr)
  have hpid : (mkPendingReport st user req).id = st.nextReportId := rfl
  refine ⟨rfl, ?_, ?_⟩
  · intro e he
    subst he
    simp only [generateReportCreate] at hcall
    rw [Prod.mk.injEq] at hcall
    obtain ⟨hst, hout⟩ := hcall
    subst hst
    subst hout
    refine ⟨?_, rfl, rfl⟩
    simp only
    rw [updateReport_append_fresh st.reports (mkPendingReport st user req)
      st.nextReportId _ hne hpid]
  · intro d hd
    subst hd
    simp only [generateReportCreate] at hcall
    rw [Prod.mk.injEq] at hcall
    obtain ⟨hst, hout⟩ := hcall
    subst hst
    subst hout
    refine ⟨_, ?_, rfl, rfl, rfl, rfl, rfl⟩
    simp only
    rw [updateReport_append_fresh st.reports (mkPendingReport st user req)
      st.nextReportId _ hne hpid]

/-- Witness for C2: on the empty store, a failing service call leaves one
`failed` row without payload, and a succeeding one leaves one `completed`
row with the payload attached. -/
theorem report_generation_lifecycle_witness :
    (∀ r ∈ st0.reports, r.id < st0.nextReportId) ∧
    ((generateReportCreate st0 7
        (.ok { report_type := "sales", date_from := 1, date_to := 2 })
        (.error ())).1.reports =
      st0.reports ++
        [{ mkPendingReport st0 7
            { report_type := "sales", date_from := 1, date_to := 2 } with
           status := "failed" }]) ∧
    (∃ cr, (generateReportCreate st0 7
        (.ok { report_type := "sales", date_from := 1, date_to := 2 })
        (.ok { raw_data := "rows", ai_summary := "text" })).1.reports =
          st0.reports ++ [cr] ∧
      (generateReportCreate st0 7
        (.ok { report_type := "sales", date_from := 1, date_to := 2 })
        (.ok { raw_data := "rows", ai_summary := "text" })).2 =
          .created cr ∧
      cr.status = "completed" ∧ cr.completed_at = some st0.time ∧
      cr.raw_data = some "rows" ∧ cr.ai_summary_text = some "text") := by
  refine ⟨by simp [st0], ?_, ?_⟩
  · exact ((report_generation_lifecycle st0 7
      { report_type := "sales", date_from := 1, date_to := 2 } (.error ())
      _ _ (by simp [st0]) rfl).2.1 () rfl).1
  · exact (report_generation_lifecycle st0 7
      { report_type := "sales", date_from := 1, date_to := 2 }
      (.ok { raw_data := "rows", ai_summary := "text" })
      _ _ (by simp [st0]) rfl).2.2 { raw_data := "rows", ai_summary := "text" } rfl

/-- A submitted id is covered when some active product row carries it. -/
def coveredBy (table : List Product) (pid : Nat) : Prop :=
  ∃ p ∈ table, p.id = pid ∧ p.is_active = true

instance coveredByDecidable (table : List Product) (pid : Nat) :
    Decidable (coveredBy table pid) :=
  List.decidableBEx _ table

/-- The ids of the matched queryset are exactly the submitted ids that are
covered by an active product. -/
lemma mem_activeMatches_map_id (table : List Product) (ids : List Nat)
    (pid : Nat) :
    pid ∈ (activeMatches table ids).map Product.id ↔
      pid ∈ ids ∧ coveredBy table pid := by
  unfold activeMatches coveredBy
  simp only [List.mem_map, List.mem_filter, Bool.and_eq_true,
    decide_eq_true_eq]
  constructor
  · rintro ⟨p, ⟨hp, hin, hact⟩, rfl⟩
    exact ⟨hin, ⟨p, hp, rfl, hact⟩⟩
  · rintro ⟨hin, p, hp, rfl, hact⟩
    exact ⟨p, ⟨hp, hin, hact⟩, rfl⟩

/-- The matched queryset has pairwise-distinct ids when the table does. -/
lemma activeMatches_map_id_nodup (table : List Product) (ids : List Nat)
    (hN : (table.map Product.id).Nodup) :
    ((activeMatches table ids).map Product.id).Nodup :=
  ((List.filter_sublist _).map _).nodup hN

/-- `products.count() == len(product_ids)` holds exactly when the submitted
list is duplicate-free and every submitted id is matched by an active
product row. -/
lemma activeMatches_length_eq_iff (table : List Product) (ids : List Nat)
    (hN : (table.map Product.id).Nodup) :
    (activeMatches table ids).length = ids.length ↔
      (ids.Nodup ∧ ∀ pid ∈ ids, coveredBy table pid) := by
  have hlen : (activeMatches table ids).length =
      ((activeMatches table ids).map Product.id).length :=
    (List.length_map _ _).symm
  have hnd := activeMatches_map_id_nodup table ids hN
  constructor
  · intro hEq
    by_contra hcon
    have hlt : ((activeMatches table ids).map Product.id).length <
        ids.length := by
      rcases Decidable.em ids.Nodup with hnod | hnod
      · have hnall : ¬ ∀ pid ∈ ids, coveredBy table pid :=
          fun hall => hcon ⟨hnod, hall⟩
        push_neg at hnall
        obtain ⟨pid0, hpid0, hbad⟩ := hnall
        have hsub : ((activeMatches table ids).map Product.id).toFinset ⊆
            ids.toFinset.erase pid0 := by
          intro a ha
          rw [List.mem_toFinset] at ha
          obtain ⟨hain, hacov⟩ := (mem_activeMatches_map_id table ids a).mp ha
          refine Finset.mem_erase.mpr ⟨?_, List.mem_toFinset.mpr hain⟩
          rintro rfl
          exact hbad hacov
        have h1 := List.toFinset_card_of_nodup hnd
        have h2 := Finset.card_le_card hsub
        have h3 := Finset.card_erase_of_mem (List.mem_toFinset.mpr hpid0)
        have h4 : 0 < ids.toFinset.card :=
          Finset.card_pos.mpr ⟨pid0, List.mem_toFinset.mpr hpid0⟩
        have h5 := List.toFinset_card_le (l := ids)
        omega
      · have hsub : ((activeMatches table ids).map Product.id).toFinset ⊆
            ids.toFinset := by
          intro a ha
          rw [List.mem_toFinset] at ha
          exact List.mem_toFinset.mpr
            ((mem_activeMatches_map_id table ids a).mp ha).1
        have h1 := List.toFinset_card_of_nodup hnd
        have h2 := Finset.card_le_card hsub
        have h3 := List.card_toFinset (l := ids)
        have h4 : ids.dedup.length < ids.length := by
          have hsl := List.dedup_sublist ids
          rcases lt_or_eq_of_le hsl.length_le with h | h
          · exact h
          · exact absurd (hsl.eq_of_length h ▸ List.nodup_dedup ids) hnod
        omega
    omega
  · rintro ⟨hnod, hcov⟩
    have hset : ((activeMatches table ids).map Product.id).toFinset =
        ids.toFinset := by
      ext a
      simp only [List.mem_toFinset]
      constructor
      · intro ha
        exact ((mem_activeMatches_map_id table ids a).mp ha).1
      · intro ha
        exact (mem_activeMatches_map_id table ids a).mpr ⟨ha, hcov a ha⟩
    calc (activeMatches table ids).length
        = ((activeMatches table ids).map Product.id).length := hlen
      _ = ((activeMatches table ids).map Product.id).toFinset.card :=
          (List.toFinset_card_of_nodup hnd).symm
      _ = ids.toFinset.card := by rw [hset]
      _ = ids.length := List.toFinset_card_of_nodup hnod

/-- C3 (amended): for a validated product-id list, `compare_products`
returns 404 exactly when the list has a duplicate id or some submitted id
is missing or inactive (a 404 leaves the state untouched); otherwise it
creates exactly one `ProductComparison` row whose product set is exactly
the set of submitted ids. -/
theorem compare_products_spec (st : St) (user : Option Nat)
    (req : CompareReq) (svc : String × String) (st' : St)
    (out : CompareOutcome)
    (hN : (st.products.map Product.id).Nodup)
    (hcall : compare_products st user (.ok req) svc = (st', out)) :
    ((out = .notFound ∧ st' = st) ↔
      ¬ (req.product_ids.Nodup ∧
         ∀ pid ∈ req.product_ids, coveredBy st.products pid)) ∧
    ((req.product_ids.Nodup ∧
      ∀ pid ∈ req.product_ids, coveredBy st.products pid) →
      ∃ c, out = .created c ∧
        st'.comparisons = st.comparisons ++ [c] ∧
        (∀ pid, pid ∈ c.product_ids ↔ pid ∈ req.product_ids)) := by
  simp only [compare_products] at hcall
  by_cases hlen : (activeMatches st.products req.product_ids).length =
      req.product_ids.length
  · rw [if_neg (not_not_intro hlen)] at hcall
    rw [Prod.mk.injEq] at hcall
    obtain ⟨hst, hout⟩ := hcall
    subst hst
    subst hout
    have hgood := (activeMatches_length_eq_iff _ _ hN).mp hlen
    refine ⟨iff_of_false (by rintro ⟨h, -⟩; simp at h)
      (not_not_intro hgood), ?_⟩
    intro _
    refine ⟨_, rfl, rfl, ?_⟩
    intro pid
    simp only
    rw [mem_activeMatches_map_id]
    exact ⟨fun h => h.1, fun h => ⟨h, hgood.2 pid h⟩⟩
  · rw [if_pos hlen] at hcall
    rw [Prod.mk.injEq] at hcall
    obtain ⟨hst, hout⟩ := hcall
    subst hst
    subst hout
    have hbad : ¬ (req.product_ids.Nodup ∧
        ∀ pid ∈ req.product_ids, coveredBy st.products pid) :=
      fun g => hlen ((activeMatches_length_eq_iff _ _ hN).mpr g)
    exact ⟨iff_of_true ⟨rfl, rfl⟩ hbad, fun g => absurd g hbad⟩

/-- The product table of the C3 counterexample: one active product. -/
def stC3 : St :=
  { st0 with products := [{ id := 1, slug := "a", is_active := true }] }

/-- C3 counterexample: submitting the duplicate list `[1, 1]`, where
product 1 exists and is active, yields 404 even though no submitted id is
missing or inactive — refuting "404 iff some submitted id refers to a
missing or inactive product". -/
theorem compare_products_duplicate_404 :
    (compare_products stC3 none (.ok { product_ids := [1, 1] })
      ("criteria", "analysis")).2 = .notFound ∧
    (∀ pid ∈ [1, 1], coveredBy stC3.products pid) ∧
    CompareOutcome.notFound.httpStatus = 404 := by
  refine ⟨by decide, ?_, rfl⟩
  decide

/-- Witness for C3 (amended): the duplicate-free list `[1]` against the same
table creates one comparison row containing exactly product 1. -/
theorem compare_products_spec_witness :
    (stC3.products.map Product.id).Nodup ∧
    (∃ c, (compare_products stC3 none (.ok { product_ids := [1] })
        ("criteria", "analysis")).2 = .created c ∧
      (compare_products stC3 none (.ok { product_ids := [1] })
        ("criteria", "analysis")).1.comparisons =
        stC3.comparisons ++ [c] ∧
      (∀ pid, pid ∈ c.product_ids ↔ pid ∈ [1])) := by
  refine ⟨by decide, ?_⟩
  exact (compare_products_spec stC3 none { product_ids := [1] }
    ("criteria", "analysis") _ _ (by decide) rfl).2
    ⟨by decide, by decide⟩

/-- `find?` commutes with a map that does not disturb the predicate. -/
lemma find?_map_pred {α : Type} (l : List α) (g : α → α) (p : α → Bool)
    (h : ∀ x, p (g x) = p x) :
    (l.map g).find? p = (l.find? p).map g := by
  induction l with
  | nil => rfl
  | cons a t ih =>
    cases hpa : p a
    · have h1 : ¬ p (g a) = true := by rw [h a, hpa]; simp
      have h2 : ¬ p a = true := by rw [hpa]; simp
      rw [List.map_cons, List.find?_cons_of_neg _ h1,
        List.find?_cons_of_neg _ h2]
      exact ih
    · have h1 : p (g a) = true := by rw [h a, hpa]
      rw [List.map_cons, List.find?_cons_of_pos _ h1,
        List.find?_cons_of_pos _ hpa]
      rfl

/-- Two saves to the same primary key compose. -/
lemma updateReport_twice (l : List GeneratedReport) (rid : Nat)
    (f g : GeneratedReport → GeneratedReport) (hid : ∀ x, (f x).id = x.id) :
    updateReport (updateReport l rid f) rid g =
      updateReport l rid (fun x => g (f x)) := by
  unfold updateReport
  rw [List.map_map]
  apply List.map_congr_left
  intro x _
  by_cases hx : x.id = rid
  · simp [Function.comp, hx, hid]
  · simp [Function.comp, hx]

/-- Two download increments add 2 and keep the later timestamp. -/
lemma incDownload_twice (t1 t2 : Nat) (x : GeneratedReport) :
    incDownload t2 (incDownload t1 x) =
      { x with download_count := x.download_count + 2,
               last_accessed := some t2 } := by
  simp only [incDownload, GeneratedReport.mk.injEq, and_true, true_and]
  try omega

/-- Whatever the requested format, the state written by `download_report`
on a successful lookup is the counter/timestamp save. -/
lemma download_report_state (st : St) (reportId userId : Nat) (fmt : String)
    (r : GeneratedReport)
    (hfind : st.reports.find? (downloadPred reportId userId) = some r) :
    (download_report st reportId userId fmt).1 =
      { st with
        reports := updateReport st.reports r.id (incDownload st.time) } := by
  simp only [download_report, hfind]
  split
  · rfl
  · split <;> rfl

/-- C7: downloading a completed report twice increments its
`download_count` by exactly 2 and refreshes `last_accessed` on both calls
(to the first call's time, then to the second call's time); a download
request for an existing report whose status is not `completed` returns an
error response, not a file, and changes nothing (the `Http404` raised by
the gated lookup is swallowed by the view's catch-all, so the error
surfaces with the generic 500 body). -/
theorem download_count_behavior :
    (∀ (st : St) (reportId userId : Nat) (fmt1 fmt2 : String) (δ : Nat)
        (r : GeneratedReport) (st1 : St) (o1 : DownloadOutcome)
        (st2 : St) (o2 : DownloadOutcome),
      (st.reports.map GeneratedReport.id).Nodup →
      st.reports.find? (downloadPred reportId userId) = some r →
      download_report st reportId userId fmt1 = (st1, o1) →
      download_report { st1 with time := st1.time + δ }
        reportId userId fmt2 = (st2, o2) →
      st1.reports = updateReport st.reports r.id (incDownload st.time) ∧
      st2.reports = updateReport st.reports r.id (fun x =>
        { x with download_count := x.download_count + 2,
                 last_accessed := some (st.time + δ) })) ∧
    (∀ (st : St) (reportId userId : Nat) (fmt : String)
        (r : GeneratedReport),
      (st.reports.map GeneratedReport.id).Nodup →
      r ∈ st.reports → r.id = reportId → r.generated_by = userId →
      r.status ≠ "completed" →
      download_report st reportId userId fmt =
        (st, .error "Failed to download report") ∧
      (DownloadOutcome.error "Failed to download report").httpStatus =
        500) := by
  constructor
  · intro st reportId userId fmt1 fmt2 δ r st1 o1 st2 o2 hN hfind hc1 hc2
    have hst1 : st1 = { st with
        reports := updateReport st.reports r.id (incDownload st.time) } := by
      rw [← download_report_state st reportId userId fmt1 r hfind, hc1]
    have hg : ∀ x : GeneratedReport,
        downloadPred reportId userId
          (if x.id = r.id then incDownload st.time x else x) =
        downloadPred reportId userId x := by
      intro x
      by_cases hx : x.id = r.id
      · rw [if_pos hx]
        rfl
      · rw [if_neg hx]
    have hfind2 : ({ st1 with time := st1.time + δ } : St).reports.find?
        (downloadPred reportId userId) = some (incDownload st.time r) := by
      show st1.reports.find? _ = _
      rw [hst1]
      show (updateReport st.reports r.id (incDownload st.time)).find? _ = _
      unfold updateReport
      rw [find?_map_pred _ _ _ hg, hfind]
      simp
    have h2 := download_report_state { st1 with time := st1.time + δ }
      reportId userId fmt2 (incDownload st.time r) hfind2
    have hst2 : st2 = { ({ st1 with time := st1.time + δ } : St) with
        reports := updateReport
          ({ st1 with time := st1.time + δ } : St).reports
          (incDownload st.time r).id
          (incDownload (({ st1 with time := st1.time + δ } : St).time)) } := by
      rw [← h2, hc2]
    refine ⟨by rw [hst1], ?_⟩
    rw [hst2]
    dsimp only
    rw [hst1]
    dsimp only
    have hidr : (incDownload st.time r).id = r.id := rfl
    rw [hidr, updateReport_twice st.reports r.id (incDownload st.time)
      (incDownload (st.time + δ)) (fun x => rfl)]
    unfold updateReport
    apply List.map_congr_left
    intro x _
    by_cases hx : x.id = r.id
    · dsimp only
      rw [if_pos hx, if_pos hx, incDownload_twice]
    · dsimp only
      rw [if_neg hx, if_neg hx]
  · intro st reportId userId fmt r hN hr hid hby hstat
    have hnone : st.reports.find? (downloadPred reportId userId) = none := by
      rw [List.find?_eq_none]
      intro x hx hpx
      unfold downloadPred at hpx
      simp only [Bool.and_eq_true, beq_iff_eq] at hpx
      obtain ⟨⟨hxid, _⟩, hxstat⟩ := hpx
      have hxr : x = r :=
        List.inj_on_of_nodup_map hN hx hr (by rw [hxid, hid])
      rw [hxr] at hxstat
      exact hstat hxstat
    refine ⟨?_, rfl⟩
    simp only [download_report, hnone]

/-- The completed report of the C7 witness. -/
def rptW7 : GeneratedReport :=
  { id := 3, report_type := "sales", generated_by := 7, store_id := none,
    date_from := 0, date_to := 1, parameters := "", status := "completed",
    raw_data := some "rows", ai_summary_text := some "sum",
    generated_at := 0 }

/-- The store of the C7 witness: one completed report at time 100. -/
def stW7 : St := { st0 with time := 100, reports := [rptW7], nextReportId := 4 }

/-- Witness for C7: downloading report 3 twice (JSON then CSV, 5 seconds
apart) applies the +1 save each time, for +2 in total with the later
timestamp. -/
theorem download_count_behavior_witness :
    (stW7.reports.map GeneratedReport.id).Nodup ∧
    stW7.reports.find? (downloadPred 3 7) = some rptW7 ∧
    (download_report stW7 3 7 "json").1.reports =
      updateReport stW7.reports rptW7.id (incDownload stW7.time) ∧
    (download_report
        { (download_report stW7 3 7 "json").1 with
          time := (download_report stW7 3 7 "json").1.time + 5 }
        3 7 "csv").1.reports =
      updateReport stW7.reports rptW7.id (fun x =>
        { x with download_count := x.download_count + 2,
                 last_accessed := some (stW7.time + 5) }) := by
  have h := download_count_behavior.1 stW7 3 7 "json" "csv" 5 rptW7
    (download_report stW7 3 7 "json").1
    (download_report stW7 3 7 "json").2
    (download_report
      { (download_report stW7 3 7 "json").1 with
        time := (download_report stW7 3 7 "json").1.time + 5 } 3 7 "csv").1
    (download_report
      { (download_report stW7 3 7 "json").1 with
        time := (download_report stW7 3 7 "json").1.time + 5 } 3 7 "csv").2
    (by decide) (by decide) rfl rfl
  exact ⟨by decide, by decide, h.1, h.2⟩

/-- The row located by `get_or_create`'s lookup is exactly the
(user, product) pair. -/
lemma like_find?_eq {likes : List ProductLike} {u pid : Nat}
    {l : ProductLike}
    (h : likes.find? (fun x => x.user == u && x.product == pid) = some l) :
    l = ⟨u, pid⟩ := by
  have hp := List.find?_some h
  simp only [Bool.and_eq_true, beq_iff_eq] at hp
  cases l
  simp_all

/-- `get_or_create` finds nothing exactly when the pair row is absent. -/
lemma like_find?_none_iff (likes : List ProductLike) (u pid : Nat) :
    likes.find? (fun x => x.user == u && x.product == pid) = none ↔
      (⟨u, pid⟩ : ProductLike) ∉ likes := by
  rw [List.find?_eq_none]
  constructor
  · intro h hmem
    exact h _ hmem (by simp)
  · intro h x hx hpx
    simp only [Bool.and_eq_true, beq_iff_eq] at hpx
    apply h
    cases x
    simp_all

/-- C10: toggling a like on an active product creates the (user, product)
row and returns `liked` when it was absent, deletes it and returns
`unliked` when present; and two successive toggles by the same user on the
same product leave the like relation exactly as before. -/
theorem toggle_like_roundtrip (st : St) (userId : Nat) (slug : String)
    (product : Product)
    (hprod : st.products.find?
      (fun p => p.slug == slug && p.is_active) = some product)
    (hnd : st.likes.Nodup)
    (st1 : St) (o1 : LikeOutcome)
    (hc1 : toggle_product_like st userId slug = (st1, o1)) :
    ((⟨userId, product.id⟩ : ProductLike) ∉ st.likes →
      o1 = .liked ∧
      st1.likes = st.likes ++ [⟨userId, product.id⟩]) ∧
    ((⟨userId, product.id⟩ : ProductLike) ∈ st.likes →
      o1 = .unliked ∧
      st1.likes = st.likes.erase ⟨userId, product.id⟩) ∧
    (∀ st2 o2, toggle_product_like st1 userId slug = (st2, o2) →
      ∀ u p, (⟨u, p⟩ : ProductLike) ∈ st2.likes ↔
        (⟨u, p⟩ : ProductLike) ∈ st.likes) := by
  cases hfl : st.likes.find?
      (fun l => l.user == userId && l.product == product.id) with
  | none =>
    have habs : (⟨userId, product.id⟩ : ProductLike) ∉ st.likes :=
      (like_find?_none_iff _ _ _).mp hfl
    simp only [toggle_product_like, hprod, hfl] at hc1
    rw [Prod.mk.injEq] at hc1
    obtain ⟨h1, h2⟩ := hc1
    subst h1
    subst h2
    refine ⟨fun _ => ⟨rfl, rfl⟩, fun hmem => absurd hmem habs, ?_⟩
    intro st2 o2 hc2 u p
    have hmem1 : (⟨userId, product.id⟩ : ProductLike) ∈
        st.likes ++ [⟨userId, product.id⟩] := by simp
    cases hfl2 : (st.likes ++ [(⟨userId, product.id⟩ : ProductLike)]).find?
        (fun l => l.user == userId && l.product == product.id) with
    | none => exact absurd hmem1 ((like_find?_none_iff _ _ _).mp hfl2)
    | some l =>
      obtain rfl := like_find?_eq hfl2
      simp only [toggle_product_like, hprod, hfl2] at hc2
      rw [Prod.mk.injEq] at hc2
      obtain ⟨h1, h2⟩ := hc2
      subst h1
      subst h2
      simp only
      rw [List.erase_append_right _ habs, List.erase_cons_head]
      simp
  | some l =>
    obtain rfl := like_find?_eq hfl
    have hmem : (⟨userId, product.id⟩ : ProductLike) ∈ st.likes :=
      List.mem_of_find?_eq_some hfl
    simp only [toggle_product_like, hprod, hfl] at hc1
    rw [Prod.mk.injEq] at hc1
    obtain ⟨h1, h2⟩ := hc1
    subst h1
    subst h2
    refine ⟨fun habs => absurd hmem habs, fun _ => ⟨rfl, rfl⟩, ?_⟩
    intro st2 o2 hc2 u p
    have habs1 : (⟨userId, product.id⟩ : ProductLike) ∉
        st.likes.erase ⟨userId, product.id⟩ := by
      intro hin
      exact absurd rfl ((hnd.mem_erase_iff.mp hin).1)
    have hfl2 : (st.likes.erase
        (⟨userId, product.id⟩ : ProductLike)).find?
        (fun l => l.user == userId && l.product == product.id) = none :=
      (like_find?_none_iff _ _ _).mpr habs1
    simp only [toggle_product_like, hprod, hfl2] at hc2
    rw [Prod.mk.injEq] at hc2
    obtain ⟨h1, h2⟩ := hc2
    subst h1
    subst h2
    simp only [List.mem_append]
    by_cases hup : (⟨u, p⟩ : ProductLike) = ⟨userId, product.id⟩
    · rw [hup]
      simp [hmem]
    · rw [List.mem_erase_of_ne hup]
      simp [hup]

/-- The product of the C10 witness. -/
def prodW10 : Product := { id := 9, slug := "gadget", is_active := true }

/-- The store of the C10 witness: one active product, no likes. -/
def stW10 : St := { st0 with products := [prodW10] }

/-- Witness for C10: a first toggle creates the row and reports `liked`;
toggling twice restores the original (empty) like relation. -/
theorem toggle_like_roundtrip_witness :
    stW10.products.find?
      (fun p => p.slug == "gadget" && p.is_active) = some prodW10 ∧
    stW10.likes.Nodup ∧
    ((toggle_product_like stW10 5 "gadget").2 = .liked ∧
     (toggle_product_like stW10 5 "gadget").1.likes =
       stW10.likes ++ [⟨5, prodW10.id⟩]) ∧
    (∀ u p, (⟨u, p⟩ : ProductLike) ∈
        (toggle_product_like
          (toggle_product_like stW10 5 "gadget").1 5 "gadget").1.likes ↔
      (⟨u, p⟩ : ProductLike) ∈ stW10.likes) := by
  have h := toggle_like_roundtrip stW10 5 "gadget" prodW10 (by decide)
    (by decide) _ _ rfl
  refine ⟨by decide, by decide, h.1 (by decide), ?_⟩
  intro u p
  exact h.2.2 _ _ rfl u p

/-- The (session, product) key of a result row. -/
def pairKey (r : RecResult) : Nat × Nat := (r.session, r.product_id)

/-- The C8 invariant: at most one result row per (session, product) pair. -/
def ResultPairsUnique (l : List RecResult) : Prop :=
  (l.map pairKey).Nodup

instance resultPairsUniqueDecidable (l : List RecResult) :
    Decidable (ResultPairsUnique l) :=
  List.nodupDecidable _

/-- Auto-increment freshness: every stored result row belongs to a session
id below the next one to be handed out. -/
def SessionIdsFresh (st : St) : Prop :=
  ∀ r ∈ st.recResults, r.session < st.nextSessionId

/-- The keys of a fresh batch are the new session id paired with each
returned product id, in order. -/
lemma mkRecResults_map_pairKey (sid : Nat) (recs : List RecItem) :
    (mkRecResults sid recs).map pairKey =
      recs.map (fun i => (sid, i.product_id)) := by
  unfold mkRecResults
  rw [List.map_map]
  have h : (pairKey ∘ fun p : Nat × RecItem =>
      ({ session := sid, product_id := p.2.product_id, score := p.2.score,
         pos := p.1 + 1, algorithm_used := p.2.algorithm } : RecResult)) =
      (fun i : RecItem => (sid, i.product_id)) ∘ Prod.snd := rfl
  rw [h, ← List.map_map, List.enum_map_snd]

/-- Ranks of a fresh batch are the positions 1..n in returned order. -/
lemma mkRecResults_map_pos (sid : Nat) (recs : List RecItem) :
    (mkRecResults sid recs).map RecResult.pos =
      (List.range recs.length).map (· + 1) := by
  unfold mkRecResults
  rw [List.map_map]
  have h : (RecResult.pos ∘ fun p : Nat × RecItem =>
      ({ session := sid, product_id := p.2.product_id, score := p.2.score,
         pos := p.1 + 1, algorithm_used := p.2.algorithm } : RecResult)) =
      (fun n : Nat => n + 1) ∘ Prod.fst := rfl
  rw [h, ← List.map_map, List.enum_map_fst]

/-- Appending a fresh-session batch with distinct product ids preserves the
pair-uniqueness invariant. -/
lemma resultPairsUnique_append (old : List RecResult) (sid : Nat)
    (svc : List RecItem)
    (hold : ResultPairsUnique old)
    (hfresh : ∀ r ∈ old, r.session < sid)
    (hnd : (svc.map RecItem.product_id).Nodup) :
    ResultPairsUnique (old ++ mkRecResults sid svc) := by
  unfold ResultPairsUnique
  rw [List.map_append, List.nodup_append]
  refine ⟨hold, ?_, ?_⟩
  · rw [mkRecResults_map_pairKey]
    have hinj : Function.Injective (fun pid : Nat => (sid, pid)) :=
      fun a b hab => by simpa using hab
    have := hnd.map hinj
    rw [List.map_map] at this
    exact this
  · intro a ha hb
    rw [mkRecResults_map_pairKey] at hb
    obtain ⟨i, _, rfl⟩ := List.mem_map.mp hb
    obtain ⟨r, hr, hkey⟩ := List.mem_map.mp ha
    have hsess : r.session = sid := congrArg Prod.fst hkey
    exact absurd hsess (Nat.ne_of_lt (hfresh r hr))

/-- A feedback update never touches the (session, product) key. -/
lemma pairKey_applyAction (a : String) (ts : Nat) (x : RecResult) :
    pairKey (applyAction a ts x) = pairKey x := by
  unfold applyAction
  split_ifs <;> rfl

/-- C8 (amended): result rows are created with rank equal to their 1-based
position in the service's returned ordering; producing recommendations
preserves the at-most-one-row-per-(session, product) invariant provided the
service's returned list carries pairwise-distinct product ids (a list
repeating a product id creates duplicate pairs); and feedback tracking
always preserves the invariant. -/
theorem rec_results_unique_and_ranked :
    (∀ (sid : Nat) (svc : List RecItem),
      (mkRecResults sid svc).map RecResult.pos =
        (List.range svc.length).map (· + 1)) ∧
    (∀ (st : St) (user : Option Nat) (req : RecRequest)
        (svc : List RecItem) (st' : St) (out : RecOutcome),
      SessionIdsFresh st → ResultPairsUnique st.recResults →
      (svc.map RecItem.product_id).Nodup →
      general_recommendations st user (.ok req) svc = (st', out) →
      ResultPairsUnique st'.recResults) ∧
    (∀ (st : St) (userId : Nat) (req : RecRequest)
        (svc : List RecItem) (st' : St) (out : RecOutcome),
      SessionIdsFresh st → ResultPairsUnique st.recResults →
      (svc.map RecItem.product_id).Nodup →
      personalized_recommendations st userId (.ok req) svc = (st', out) →
      ResultPairsUnique st'.recResults) ∧
    (∀ (st : St) (input : Except FieldErrors FeedbackReq) (st' : St)
        (out : TrackOutcome),
      ResultPairsUnique st.recResults →
      track_recommendation_interaction st input = (st', out) →
      ResultPairsUnique st'.recResults) := by
  refine ⟨mkRecResults_map_pos, ?_, ?_, ?_⟩
  · intro st user req svc st' out hfresh hu hnd hcall
    cases hcg : cacheGet st.recCache st.time (generalCacheKey req.limit) with
    | some v =>
      simp only [general_recommendations, hcg] at hcall
      rw [Prod.mk.injEq] at hcall
      obtain ⟨h1, h2⟩ := hcall
      subst h1
      exact hu
    | none =>
      simp only [general_recommendations, hcg] at hcall
      rw [Prod.mk.injEq] at hcall
      obtain ⟨h1, h2⟩ := hcall
      subst h1
      exact resultPairsUnique_append _ _ _ hu hfresh hnd
  · intro st userId req svc st' out hfresh hu hnd hcall
    cases hcg : cacheGet st.recCache st.time
        (personalizedCacheKey userId req.limit) with
    | some v =>
      simp only [personalized_recommendations, hcg] at hcall
      rw [Prod.mk.injEq] at hcall
      obtain ⟨h1, h2⟩ := hcall
      subst h1
      exact hu
    | none =>
      simp only [personalized_recommendations, hcg] at hcall
      rw [Prod.mk.injEq] at hcall
      obtain ⟨h1, h2⟩ := hcall
      subst h1
      exact resultPairsUnique_append _ _ _ hu hfresh hnd
  · intro st input st' out hu hcall
    match input with
    | .error errs =>
      simp only [track_recommendation_interaction] at hcall
      rw [Prod.mk.injEq] at hcall
      obtain ⟨h1, h2⟩ := hcall
      subst h1
      exact hu
    | .ok fb =>
      cases hfl : st.recResults.filter (fbMatches fb) with
      | nil =>
        simp only [track_recommendation_interaction, hfl] at hcall
        rw [Prod.mk.injEq] at hcall
        obtain ⟨h1, h2⟩ := hcall
        subst h1
        exact hu
      | cons r1 tl =>
        cases tl with
        | nil =>
          simp only [track_recommendation_interaction, hfl] at hcall
          rw [Prod.mk.injEq] at hcall
          obtain ⟨h1, h2⟩ := hcall
          subst h1
          unfold ResultPairsUnique
          have hkeys : ((st.recResults.map fun x =>
              if fbMatches fb x then
                applyAction fb.action (fb.timestamp.getD st.time) x
              else x).map pairKey) =
              st.recResults.map pairKey := by
            rw [List.map_map]
            apply List.map_congr_left
            intro x _
            simp only [Function.comp_apply]
            by_cases hm : fbMatches fb x
            · rw [if_pos hm, pairKey_applyAction]
            · rw [if_neg hm]
          rw [hkeys]
          exact hu
        | cons r2 rest =>
          simp only [track_recommendation_interaction, hfl] at hcall
          rw [Prod.mk.injEq] at hcall
          obtain ⟨h1, h2⟩ := hcall
          subst h1
          exact hu

/-- C8 counterexample: a service list that repeats product 1 creates two
result rows for the same (session, product) pair, so the claimed invariant
fails for that returned list. -/
theorem rec_results_duplicate_pair :
    ¬ ResultPairsUnique
      ((general_recommendations st0 none (.ok {})
        [{ product_id := 1, score := 5, algorithm := "trend" },
         { product_id := 1, score := 6, algorithm := "trend" }]).1.recResults) := by
  decide

/-- Witness for C8 (amended): a duplicate-free service list keeps the
invariant after a cache-miss production on the empty store. -/
theorem rec_results_unique_witness :
    SessionIdsFresh st0 ∧ ResultPairsUnique st0.recResults ∧
    (([{ product_id := 1, score := 5, algorithm := "trend" },
       { product_id := 2, score := 6, algorithm := "trend" }] :
        List RecItem).map RecItem.product_id).Nodup ∧
    ResultPairsUnique ((general_recommendations st0 none (.ok {})
      [{ product_id := 1, score := 5, algorithm := "trend" },
       { product_id := 2, score := 6, algorithm := "trend" }]).1.recResults) := by
  refine ⟨?_, by decide, by decide, ?_⟩
  · intro r hr
    simp [st0] at hr
  · exact rec_results_unique_and_ranked.2.1 st0 none {}
      [{ product_id := 1, score := 5, algorithm := "trend" },
       { product_id := 2, score := 6, algorithm := "trend" }] _ _
      (by intro r hr; simp [st0] at hr) (by decide) (by decide) rfl

/-- A value read back from the cache now is read back unchanged at any
later instant at which the key is still live. -/
lemma cacheGet_later (c : RecCache) (t t' : Nat) (key : String)
    (v : RecResponse) (h : cacheGet c t key = some v)
    (hlive : cacheGet c t' key ≠ none) :
    cacheGet c t' key = some v := by
  unfold cacheGet at h hlive ⊢
  cases hc : c key with
  | none =>
    rw [hc] at h
    dsimp only at h
    cases h
  | some p =>
    obtain ⟨w, e⟩ := p
    rw [hc] at h hlive
    dsimp only at h hlive
    try dsimp only
    by_cases ht' : t' < e
    · rw [if_pos ht']
      by_cases ht : t < e
      · rw [if_pos ht] at h
        exact h
      · rw [if_neg ht] at h
        cases h
    · rw [if_neg ht'] at hlive
      exact absurd rfl hlive

/-- Reading a freshly stored key at store time returns the stored value. -/
lemma cacheGet_cacheSet_fresh (c : RecCache) (now : Nat) (key : String)
    (v : RecResponse) (ttl : Nat) (h : 0 < ttl) :
    cacheGet (cacheSet c now key v ttl) now key = some v := by
  have hbeta : cacheSet c now key v ttl key = some (v, now + ttl) := by
    show (if key = key then some (v, now + ttl) else c key) =
      some (v, now + ttl)
    rw [if_pos rfl]
  unfold cacheGet
  rw [hbeta]
  dsimp only
  rw [if_pos (Nat.lt_add_of_pos_right h)]

/-- After any 200 response of `general_recommendations`, the derived key
holds exactly the returned response (stored on a miss, already present on
a hit). -/
lemma general_caches_response (st : St) (user : Option Nat)
    (req : RecRequest) (svc : List RecItem) (st' : St) (r : RecResponse)
    (hcall : general_recommendations st user (.ok req) svc = (st', .ok r)) :
    cacheGet st'.recCache st'.time (generalCacheKey req.limit) = some r := by
  cases hcg : cacheGet st.recCache st.time (generalCacheKey req.limit) with
  | some v =>
    simp only [general_recommendations, hcg] at hcall
    rw [Prod.mk.injEq] at hcall
    obtain ⟨h1, h2⟩ := hcall
    subst h1
    injection h2 with hv
    subst hv
    exact hcg
  | none =>
    simp only [general_recommendations, hcg] at hcall
    rw [Prod.mk.injEq] at hcall
    obtain ⟨h1, h2⟩ := hcall
    subst h1
    injection h2 with hv
    subst hv
    exact cacheGet_cacheSet_fresh _ _ _ _ _ (by omega)

/-- After any 200 response of `personalized_recommendations`, the derived
key holds exactly the returned response. -/
lemma personalized_caches_response (st : St) (userId : Nat)
    (req : RecRequest) (svc : List RecItem) (st' : St) (r : RecResponse)
    (hcall : personalized_recommendations st userId (.ok req) svc =
      (st', .ok r)) :
    cacheGet st'.recCache st'.time (personalizedCacheKey userId req.limit) =
      some r := by
  cases hcg : cacheGet st.recCache st.time
      (personalizedCacheKey userId req.limit) with
  | some v =>
    simp only [personalized_recommendations, hcg] at hcall
    rw [Prod.mk.injEq] at hcall
    obtain ⟨h1, h2⟩ := hcall
    subst h1
    injection h2 with hv
    subst hv
    exact hcg
  | none =>
    simp only [personalized_recommendations, hcg] at hcall
    rw [Prod.mk.injEq] at hcall
    obtain ⟨h1, h2⟩ := hcall
    subst h1
    injection h2 with hv
    subst hv
    exact cacheGet_cacheSet_fresh _ _ _ _ _ (by omega)

/-- C1: for two recommendation requests (general, or personalized by the
same user) deriving the identical cache key, if the second arrives while
the entry left by the first is still live, the second call returns exactly
the first call's response — original session id included — and leaves the
state untouched: no new `RecommendationSession` row and no new
`RecommendationResult` rows. -/
theorem cached_response_replayed :
    (∀ (st : St) (u1 u2 : Option Nat) (req1 req2 : RecRequest)
        (svc1 svc2 : List RecItem) (δ : Nat) (st1 : St) (out1 : RecOutcome)
        (r1 : RecResponse),
      req1.limit = req2.limit →
      general_recommendations st u1 (.ok req1) svc1 = (st1, out1) →
      out1 = .ok r1 →
      cacheGet st1.recCache (st1.time + δ)
        (generalCacheKey req2.limit) ≠ none →
      general_recommendations { st1 with time := st1.time + δ } u2
          (.ok req2) svc2 =
        ({ st1 with time := st1.time + δ }, .ok r1)) ∧
    (∀ (st : St) (userId : Nat) (req1 req2 : RecRequest)
        (svc1 svc2 : List RecItem) (δ : Nat) (st1 : St) (out1 : RecOutcome)
        (r1 : RecResponse),
      req1.limit = req2.limit →
      personalized_recommendations st userId (.ok req1) svc1 = (st1, out1) →
      out1 = .ok r1 →
      cacheGet st1.recCache (st1.time + δ)
        (personalizedCacheKey userId req2.limit) ≠ none →
      personalized_recommendations { st1 with time := st1.time + δ } userId
          (.ok req2) svc2 =
        ({ st1 with time := st1.time + δ }, .ok r1)) := by
  constructor
  · intro st u1 u2 req1 req2 svc1 svc2 δ st1 out1 r1 hlim hc1 hout hlive
    subst hout
    have hstore := general_caches_response st u1 req1 svc1 st1 r1 hc1
    rw [hlim] at hstore
    have hget2 : cacheGet st1.recCache (st1.time + δ)
        (generalCacheKey req2.limit) = some r1 :=
      cacheGet_later _ _ _ _ _ hstore hlive
    simp only [general_recommendations, hget2]
  · intro st userId req1 req2 svc1 svc2 δ st1 out1 r1 hlim hc1 hout hlive
    subst hout
    have hstore := personalized_caches_response st userId req1 svc1 st1 r1 hc1
    rw [hlim] at hstore
    have hget2 : cacheGet st1.recCache (st1.time + δ)
        (personalizedCacheKey userId req2.limit) = some r1 :=
      cacheGet_later _ _ _ _ _ hstore hlive
    simp only [personalized_recommendations, hget2]

/-- The request of the C1 witness (default limit 10). -/
def reqW1 : RecRequest := {}

/-- The service list of the C1 witness. -/
def svcW1 : List RecItem :=
  [{ product_id := 1, score := 2, algorithm := "trend" }]

/-- The state after the first (cache-missing) general call at time 0. -/
def stW1 : St := (general_recommendations st0 none (.ok reqW1) svcW1).1

/-- The response composed by that first call. -/
def respW1 : RecResponse :=
  { session_id := 0, recommendations := svcW1, total_count := 1,
    algo_type := "general",
    algo_description := "Trending and popular products" }

/-- Witness for C1: immediately after the first call (δ = 0, entry live for
900 s), a second general request with the same limit replays the stored
response — with the original session id 0 — and changes nothing, even
though the service would now return a different (empty) list. -/
theorem cached_response_replayed_witness :
    reqW1.limit = reqW1.limit ∧
    (general_recommendations st0 none (.ok reqW1) svcW1).2 = .ok respW1 ∧
    cacheGet stW1.recCache (stW1.time + 0)
      (generalCacheKey reqW1.limit) ≠ none ∧
    general_recommendations { stW1 with time := stW1.time + 0 } none
        (.ok reqW1) [] =
      ({ stW1 with time := stW1.time + 0 }, .ok respW1) := by
  refine ⟨rfl, rfl, by decide, ?_⟩
  exact cached_response_replayed.1 st0 none none reqW1 reqW1 svcW1 [] 0
    stW1 (general_recommendations st0 none (.ok reqW1) svcW1).2 respW1
    rfl rfl rfl (by decide)
